import Mathlib

/-!
# gps: the call runtime and its registries

A shallow embedding of `controller.go` and `plugin.go`.

* Go's `reflect.Type` is a record of the three observations the code makes of
  a type: `Kind()`, `String()` and, for identity, the import path.  Go
  documents that `String()` "may use shortened package names and is not
  guaranteed to be unique among types": `text/template.Template` and
  `html/template.Template` both print as `template.Template`.
* An `interface{}` value is `Option Val`: `none` is `nil`, `some v` carries its
  dynamic type and its data.
* Maps are total functions into `Option`.
* A panic is an explicit result; the state reached when the panic is raised is
  kept, since a recovered panic leaves the controller as mutated so far.
* `uint64` is `Nat` reduced modulo `2 ^ 64`.
* Goroutines are explicit. A run of `sendMessage` calls is taken in the order
  of their atomic increments. A schedule is a list of steps: the reader
  decodes the next frame, the goroutine dispatched for a request runs, or the
  goroutine of a call takes its response and decodes it.
* The reader decodes with gob into the one variable `m` it declares before its
  loop. A frame is given as the `Message` the peer encoded. gob does not send
  a field that is zero, and decoding leaves such a field of `m` as it was; a
  slice is decoded into the backing array and the `Value` cells that `m`
  already has when the capacity suffices. The cells live in a heap of the
  connection, and a message in memory holds their addresses, so that the copy
  `r := m` that the reader delivers shares them with `m`.
-/

set_option linter.dupNamespace false

namespace Gps

/-! ## Values and types -/

/-- The kinds of `reflect.Kind`; `RawPointer` is the kind of the pointers of
package `unsafe`. -/
inductive Kind
  | Invalid | Bool | Int | Int8 | Int16 | Int32 | Int64
  | Uint | Uint8 | Uint16 | Uint32 | Uint64 | Uintptr
  | Float32 | Float64 | Complex64 | Complex128
  | Array | Chan | Func | Interface | Map | Ptr | Slice | String | Struct
  | RawPointer
  deriving DecidableEq, Repr

/-- A `reflect.Type` as the code observes it: `Kind()`, the import path of the
defining package, and `String()`. Two types are the same type when all three
agree; `String()` alone does not identify a type. -/
structure GoType where
  kind : Kind
  pkgPath : String
  str : String
  deriving DecidableEq, Repr

/-- The data held by a value of a non-interface type. -/
inductive Data
  | int (i : Int)
  | str (s : String)
  | bool (b : Bool)
  | bytes (b : List Nat)
  deriving DecidableEq, Repr

/-- A non-nil `interface{}` value: its dynamic type and its data. -/
structure Val where
  typ : GoType
  data : Data
  deriving DecidableEq, Repr

/-- An `interface{}` value; `none` is `nil`. Also used for `reflect.Value`,
where `none` is the zero Value that `reflect.ValueOf(nil)` returns. -/
abbrev Iface := Option Val

/-- The wire form of one argument or result (`type Value struct`). The field
`Typ` is the source's `Type`. -/
structure Value where
  Typ : String
  Value : List Nat
  deriving DecidableEq, Repr

/-- The wire frame (`type Message struct`). -/
structure Message where
  Result : Bool
  ID : Nat
  FuncID : String
  InstID : Nat
  Values : List Value
  deriving DecidableEq, Repr

/-- The `Codec` interface of `codecs.go`. `Decode(v, value)` writes through the
pointer `value` into a fresh cell of the registered type; the cell is typed, so
the model has one entry per sort of cell: `Decode` gives the data written into
a cell of a non-interface type, `DecodeIface` gives the interface value left
in a cell of an interface type. -/
structure Codec where
  Encode : Iface → Except String (List Nat)
  Decode : List Nat → GoType → Except String Data
  DecodeIface : List Nat → GoType → Except String Iface

/-- How a call ends abnormally: a panic, or an error returned to the caller. -/
inductive Fault
  | panic (msg : String)
  | error (msg : String)
  deriving DecidableEq, Repr

/-- The source's `type Function func([]reflect.Value) []reflect.Value`; the
call may panic inside reflect. -/
abbrev Function := List Iface → Except Fault (List Iface)

/-- The signature of a function type: `In(i)`, `Out(i)`, `IsVariadic()`. -/
structure Signature where
  ins : List GoType
  outs : List GoType
  variadic : Bool

/-- A function value: its type (kind `Func`), its signature and its body. -/
structure FuncValue where
  typ : GoType
  sig : Signature
  call : List Iface → List Iface

/-- One field of a struct value, as `RegisterInterface` reads it: the field's
static type, the method signatures of that type (`Method(i).Type`), and the
dynamic type of the value the field holds (`none` when it holds nil). -/
structure FieldValue where
  typ : GoType
  methods : List Signature
  held : Option GoType

/-- A struct value: its type and its fields. -/
structure StructValue where
  typ : GoType
  fields : List FieldValue

/-- An argument passed as `interface{}` to a Register call. -/
inductive Dyn
  | nil
  | data (v : Val)
  | func (f : FuncValue)
  | struct (s : StructValue)

/-! ## The connection state (`type Plugin struct`) -/

/-- The zero `Value`. -/
def zeroValue : Value := { Typ := "", Value := [] }

/-- A `Message` in the memory of the process. The field `Values` of the source
is a slice of pointers `[]*Value`: here `Values` are the addresses, in the heap
of the connection, of the elements within the length of the slice, and `spare`
the addresses that the backing array holds between the length and the
capacity. The struct copy `r := m` copies the slice header, so that `r` and `m`
share the cells the addresses name. A pointer stored in a backing array is
never replaced (gob keeps a pointer that is not nil), so the copied addresses
stand for the shared array. -/
structure MemMessage where
  Result : Bool
  ID : Nat
  FuncID : String
  InstID : Nat
  Values : List Nat
  spare : List Nat
  deriving DecidableEq, Repr

/-- What the reader loop is doing. -/
inductive Reader
  /-- Reading frames. -/
  | running
  /-- Blocked in `rc <- &r` on a nil channel: the id had no entry. -/
  | blockedNil (id : Nat)
  /-- Blocked in `rc <- &r` on the full channel `rc`, holding `r`, until the
  goroutine of the call takes the earlier message from that channel. -/
  | blockedFull (rc : Nat) (r : MemMessage)
  /-- Left the loop at end of stream. -/
  | stopped
  deriving DecidableEq, Repr

/-- The connection. `chans` are the `rc` channels made by `sendMessage`, in
order of creation, each of capacity one (`none` is empty), and `results` the
channels `out` made by the same calls, on which the goroutine of a call puts
the decoded values; `returner` maps an id to the index of a channel; `out`
holds the requests handed to the writer in call order and `inq` (the source's
`in`) the results of invocations. `heap` holds the `Value` cells that gob
allocated, `m` is the variable `m` and `inBuf` the slice `in` that `serveIn`
declares once, before its loop; `pending` are the result messages of the
dispatched invocations that have not run yet. -/
structure Plugin where
  messageID : Nat
  returner : Nat → Option Nat
  chans : List (Option MemMessage)
  results : List (Option (List Iface))
  out : List Message
  inq : List Message
  heap : List Value
  m : MemMessage
  inBuf : List Iface
  pending : List Message
  reader : Reader
  crashed : Option String

/-- The source's `newPlugin`, with the zero values of the locals of
`serveIn`. -/
def newPlugin : Plugin :=
  { messageID := 0, returner := fun _ => none, chans := [], results := [], out := [],
    inq := [], heap := [],
    m := { Result := false, ID := 0, FuncID := "", InstID := 0, Values := [], spare := [] },
    inBuf := [], pending := [], reader := Reader.running, crashed := none }

/-! ## The controller -/

/-- The source's `type Controller struct`. -/
structure Controller where
  Plugin : Bool
  plugin : Option Gps.Plugin
  ValueCodec : Codec
  StreamCodec : Codec
  TypeRegistry : String → Option GoType
  InterfaceRegistry : GoType → Option GoType
  FuncRegistry : String → Option Function

/-- The source's `NewController`; the two package variables it reads,
`DefaultValueCodec` and `DefaultStreamCodec`, are parameters. -/
def NewController (DefaultValueCodec DefaultStreamCodec : Codec) : Controller :=
  { Plugin := false, plugin := none,
    ValueCodec := DefaultValueCodec, StreamCodec := DefaultStreamCodec,
    TypeRegistry := fun _ => none,
    InterfaceRegistry := fun _ => none,
    FuncRegistry := fun _ => none }

/-- The source's `NewPluginController`, without starting the loops. -/
def NewPluginController (DefaultValueCodec DefaultStreamCodec : Codec) : Controller :=
  { NewController DefaultValueCodec DefaultStreamCodec with
    Plugin := true, plugin := some newPlugin }

/-- The source's `registerType`: a panic for an interface or function type,
otherwise the assignment `c.TypeRegistry[t.String()] = t`. -/
def registerType (c : Controller) (t : GoType) : Controller × Option String :=
  match t.kind with
  | Kind.Interface => (c, some "Unsupported interface arguments")
  | Kind.Func => (c, some "Unsupported function arguments")
  | _ => ({ c with TypeRegistry := fun k => if k = t.str then some t else c.TypeRegistry k },
          none)

/-- One of the `for` loops over `t.In(i)` or `t.Out(i)`: `registerType` on
each type in order, stopping at the first panic. -/
def registerTypes (c : Controller) : List GoType → Controller × Option String
  | [] => (c, none)
  | t :: ts =>
    match registerType c t with
    | (c1, none) => registerTypes c1 ts
    | (c1, some msg) => (c1, some msg)

/-- Whether reflect accepts `a` as an argument for a parameter of type `p`:
a zero Value never is; a value is when its type is `p`, or when `p` is an
interface type (taken to be implemented). -/
def assignable (a : Iface) (p : GoType) : Bool :=
  match a with
  | none => false
  | some v => decide (p.kind = Kind.Interface) || decide (v.typ = p)

/-- The argument check shared by `Value.Call` and `Value.CallSlice`. -/
def checkArgs (ins : List GoType) (args : List Iface) : Option String :=
  if args.length < ins.length then some "reflect: Call with too few input arguments"
  else if ins.length < args.length then some "reflect: Call with too many input arguments"
  else if (List.zip args ins).all (fun q => assignable q.1 q.2) then none
  else some "reflect: Call using value of the wrong type or zero Value"

/-- The method `v.Call` of reflect for a function that is not variadic, the
only functions `RegisterFunc` stores it for. -/
def FuncValue.Call (f : FuncValue) : Function := fun args =>
  match checkArgs f.sig.ins args with
  | some msg => Except.error (Fault.panic msg)
  | none => Except.ok (f.call args)

/-- The method `v.CallSlice` of reflect: the last argument is the slice of the
variadic parameter; a panic when the function is not variadic. -/
def FuncValue.CallSlice (f : FuncValue) : Function := fun args =>
  if f.sig.variadic then
    match checkArgs f.sig.ins args with
    | some msg => Except.error (Fault.panic msg)
    | none => Except.ok (f.call args)
  else Except.error (Fault.panic "reflect: CallSlice of non-variadic function")

/-- The source's `RegisterFunc`. The adapter is stored first; the two loops
over the parameter and the return types follow. -/
def RegisterFunc (c : Controller) (identifier : String) (e : Dyn) : Controller × Option String :=
  match e with
  | Dyn.nil => (c, some "reflect: call of reflect.Value.Type on zero Value")
  | Dyn.data v => (c, some ("Expected function, found " ++ v.typ.str ++ " instead."))
  | Dyn.struct s => (c, some ("Expected function, found " ++ s.typ.str ++ " instead."))
  | Dyn.func fv =>
    let f : Function := if fv.sig.variadic then fv.CallSlice else fv.Call
    let c1 : Controller :=
      { c with FuncRegistry := fun k => if k = identifier then some f else c.FuncRegistry k }
    match registerTypes c1 fv.sig.ins with
    | (c2, some msg) => (c2, some msg)
    | (c2, none) => registerTypes c2 fv.sig.outs

/-- The body of the loop over the methods in `RegisterInterface`: for each
method its parameter types, then its return types. -/
def registerMethods (c : Controller) : List Signature → Controller × Option String
  | [] => (c, none)
  | m :: ms =>
    match registerTypes c m.ins with
    | (c1, some msg) => (c1, some msg)
    | (c1, none) =>
      match registerTypes c1 m.outs with
      | (c2, some msg) => (c2, some msg)
      | (c2, none) => registerMethods c2 ms

/-- The source's `RegisterInterface`. -/
def RegisterInterface (c : Controller) (e : Dyn) : Controller × Option String :=
  match e with
  | Dyn.nil => (c, some "reflect: call of reflect.Value.Type on zero Value")
  | Dyn.data v => (c, some ("Expected struct, found " ++ v.typ.str ++ " instead."))
  | Dyn.func f => (c, some ("Expected struct, found " ++ f.typ.str ++ " instead."))
  | Dyn.struct s =>
    match s.fields with
    | [fld] =>
      if fld.typ.kind = Kind.Interface ∨ fld.typ.kind = Kind.Ptr then
        match fld.held with
        | none => (c, some "Expected mock implementation, found nil instead")
        | some mt =>
          let c1 : Controller :=
            { c with InterfaceRegistry :=
                fun k => if k = fld.typ then some mt else c.InterfaceRegistry k }
          registerMethods c1 fld.methods
      else (c, some "reflect: call of reflect.Value.Elem on a value that is no interface or pointer")
    | _ => (c, some "Expected single-field struct")

/-- The source's `EncodeValue`. `reflect.TypeOf(nil)` is nil and `t.String()`
on it panics. -/
def EncodeValue (c : Controller) (value : Iface) : Except Fault Value :=
  match value with
  | none => Except.error (Fault.panic "nil pointer dereference")
  | some v =>
    match c.ValueCodec.Encode (some v) with
    | Except.error err => Except.error (Fault.error err)
    | Except.ok b => Except.ok { Typ := v.typ.str, Value := b }

/-- The source's `DecodeValue`: `nil` when the type name is unknown or the
codec fails; otherwise `value.Elem().Interface()` of the fresh cell. -/
def DecodeValue (c : Controller) (v : Value) : Iface :=
  match c.TypeRegistry v.Typ with
  | none => none
  | some t =>
    if t.kind = Kind.Interface then
      match c.ValueCodec.DecodeIface v.Value t with
      | Except.error _ => none
      | Except.ok i => i
    else
      match c.ValueCodec.Decode v.Value t with
      | Except.error _ => none
      | Except.ok d => some { typ := t, data := d }

/-- The source's `callFunction`, the local invocation. -/
def callFunction (c : Controller) (identifier : String) (args : List Iface) :
    Except Fault (List Iface) :=
  match c.FuncRegistry identifier with
  | none => Except.error (Fault.panic ("Invalid identifier: " ++ identifier))
  | some f => f args

/-- The loop over `args` in `CallFunction`, and the loop over the results in
the dispatched invocation: `EncodeValue` on each, with `panic(err)` at the
first failure. -/
def encodeAll (c : Controller) : List Iface → Except Fault (List Value)
  | [] => Except.ok []
  | a :: rest =>
    match EncodeValue c a with
    | Except.error (Fault.error err) => Except.error (Fault.panic err)
    | Except.error (Fault.panic msg) => Except.error (Fault.panic msg)
    | Except.ok v =>
      match encodeAll c rest with
      | Except.error f => Except.error f
      | Except.ok vs => Except.ok (v :: vs)

/-! ## The connection: `sendMessage` and the reader loop -/

/-- The synchronous part of the source's `sendMessage`: the counter is
incremented as a `uint64`, the message gets the new id and `Result = false`,
a fresh channel `rc` is entered in `returner` under the id, the channel `out`
of the call is made, and the request goes to the outbound queue. Returns the
new state and the index of the fresh channels, on which the goroutine of this
call and its caller wait. -/
def sendMessage (p : Plugin) (m : Message) : Plugin × Nat :=
  let id := (p.messageID + 1) % 2 ^ 64
  let rc := p.chans.length
  ({ p with
      messageID := id,
      returner := fun k => if k = id then some rc else p.returner k,
      chans := p.chans ++ [none],
      results := p.results ++ [none],
      out := p.out ++ [{ m with ID := id, Result := false }] },
   rc)

/-- The source's `CallFunction` up to the point where it blocks on the result
channel: the new controller state and the channel the call waits on, or the
panic. A controller whose `plugin` is nil panics in `sendMessage` on the
dereference of `p.messageID`. -/
def CallFunction (c : Controller) (identifier : String) (args : List Iface) :
    Except Fault (Controller × Nat) :=
  match c.FuncRegistry identifier with
  | none => Except.error (Fault.panic ("Invalid identifier: " ++ identifier))
  | some _ =>
    match encodeAll c args with
    | Except.error f => Except.error f
    | Except.ok vs =>
      match c.plugin with
      | none => Except.error (Fault.panic "nil pointer dereference")
      | some p =>
        let r := sendMessage p
          { Result := false, ID := 0, FuncID := identifier, InstID := 0, Values := vs }
        Except.ok ({ c with plugin := some r.1 }, r.2)

/-- The message that `r` is when its `Values` are read through the heap as it
is now. -/
def Plugin.load (p : Plugin) (r : MemMessage) : Message :=
  { Result := r.Result, ID := r.ID, FuncID := r.FuncID, InstID := r.InstID,
    Values := r.Values.map (fun a => p.heap.getD a zeroValue) }

/-- The gob decoding of one element into the `Value` cell it already has: gob
does not transmit a field that is zero, and the decoder leaves the field of
the destination as it was. -/
def gobMergeValue (cell sent : Value) : Value :=
  { Typ := if sent.Typ = "" then cell.Typ else sent.Typ,
    Value := if sent.Value = [] then cell.Value else sent.Value }

/-- The gob decoding of the elements of a slice into the cells at `addrs`, in
place. -/
def gobDecodeElems (heap : List Value) : List Nat → List Value → List Value
  | a :: addrs, v :: vs =>
    gobDecodeElems (heap.set a (gobMergeValue (heap.getD a zeroValue) v)) addrs vs
  | _, _ => heap

/-- The call `d.Decode(&m)` of `serveIn` for the frame that the peer encoded
from the message `sent`. The destination is the one variable `m` of the loop.
A field that is zero in `sent` is not on the wire and keeps its earlier value
in `m`. A slice that is on the wire is decoded into the backing array `m`
already has when its capacity suffices, each element into the cell its pointer
already names; otherwise into a new array of new cells. -/
def gobDecode (p : Plugin) (sent : Message) : Plugin :=
  let array := p.m.Values ++ p.m.spare
  let n := sent.Values.length
  let result := sent.Result || p.m.Result
  let id := if sent.ID = 0 then p.m.ID else sent.ID
  let funcID := if sent.FuncID = "" then p.m.FuncID else sent.FuncID
  let instID := if sent.InstID = 0 then p.m.InstID else sent.InstID
  if n = 0 then
    { p with m := { Result := result, ID := id, FuncID := funcID, InstID := instID,
                    Values := p.m.Values, spare := p.m.spare } }
  else if array.length < n then
    { p with
        heap := p.heap ++ sent.Values.map (gobMergeValue zeroValue),
        m := { Result := result, ID := id, FuncID := funcID, InstID := instID,
               Values := List.range' p.heap.length n, spare := [] } }
  else
    { p with
        heap := gobDecodeElems p.heap (array.take n) sent.Values,
        m := { Result := result, ID := id, FuncID := funcID, InstID := instID,
               Values := array.take n, spare := array.drop n } }

/-- One iteration of the loop of `serveIn` on the frame encoded from `sent`:
`d.Decode(&m)`, then the branch on `m.Result`. A response is copied, `r := m`,
and `&r` is sent on `p.returner[m.ID]`: a missing entry gives the nil channel,
and a send on a nil channel blocks forever; a full channel blocks the reader
until the goroutine of the call has taken the earlier message. A request
overwrites the shared slice `in` with its decoded values and starts a
goroutine whose result message carries the id and the function id. -/
def readFrame (c : Controller) (p : Plugin) (sent : Message) : Plugin :=
  let q := gobDecode p sent
  if q.m.Result then
    match q.returner q.m.ID with
    | none => { q with reader := Reader.blockedNil q.m.ID }
    | some rc =>
      match q.chans[rc]? with
      | some none => { q with chans := q.chans.set rc (some q.m) }
      | some (some _) => { q with reader := Reader.blockedFull rc q.m }
      | none => { q with reader := Reader.blockedNil q.m.ID }
  else
    { q with
        inBuf := (q.load q.m).Values.map (DecodeValue c),
        pending := q.pending ++
          [{ Result := true, ID := q.m.ID, FuncID := q.m.FuncID, InstID := 0, Values := [] }] }

/-- The reader loop on its own, on the frames that arrive, in order, with no
other goroutine taking a step in between: a reader that is blocked, or whose
process has ended in a panic, reads nothing more. -/
def readFrames (c : Controller) (p : Plugin) : List Message → Plugin
  | [] => p
  | m :: ms =>
    if p.reader = Reader.running ∧ p.crashed = none then readFrames c (readFrame c p m) ms
    else p

/-- The source's `serveIn` on a stream that holds `frames` and then ends: the
loop, then the `break` at `io.EOF`. -/
def serveIn (c : Controller) (p : Plugin) (frames : List Message) : Plugin :=
  let q := readFrames c p frames
  if q.reader = Reader.running ∧ q.crashed = none then { q with reader := Reader.stopped } else q

/-- The goroutine that `sendMessage` starts for the call with channel `rc`,
from `m := <-rc` to `out <- values`: it takes the response from the channel,
calls `DecodeValue` on each of its values as the cells hold them at that
moment, and puts the decoded values on the channel `out` of the call. When
the reader is blocked on this channel, its send goes through. The goroutine
receives once: later it takes nothing more. -/
def receiveResponse (c : Controller) (p : Plugin) (rc : Nat) : Plugin :=
  match p.chans[rc]?, p.results[rc]? with
  | some (some r), some none =>
    let values := (p.load r).Values.map (DecodeValue c)
    let q := { p with chans := p.chans.set rc none, results := p.results.set rc (some values) }
    match q.reader with
    | Reader.blockedFull rc2 r2 =>
      if rc2 = rc then { q with chans := q.chans.set rc (some r2), reader := Reader.running }
      else q
    | _ => q
  | _, _ => p

/-- The goroutine started for a request, run to its end: it calls
`callFunction(result.FuncID, in...)` with the slice `in` as it is when the
goroutine runs, encodes the results into `result.Values` and sends `result` on
`p.in`. A panic in it ends the process. `k` is its position among the pending
goroutines. -/
def runInvocation (c : Controller) (p : Plugin) (k : Nat) : Plugin :=
  match p.pending[k]? with
  | none => p
  | some result =>
    match callFunction c result.FuncID p.inBuf with
    | Except.error (Fault.panic msg) => { p with crashed := some msg }
    | Except.error (Fault.error msg) => { p with crashed := some msg }
    | Except.ok r =>
      match encodeAll c r with
      | Except.error (Fault.panic msg) => { p with crashed := some msg }
      | Except.error (Fault.error msg) => { p with crashed := some msg }
      | Except.ok vs =>
        { p with
            pending := p.pending.eraseIdx k,
            inq := p.inq ++ [{ result with Values := vs }] }

/-- One scheduling step: the reader decodes the next frame, a pending
goroutine of a request runs, or the goroutine of a call takes its response. -/
inductive Event
  | frame (m : Message)
  | invoke (k : Nat)
  | receive (rc : Nat)

/-- One step of the connection under a schedule. A step that cannot be taken
in the state leaves it as it is. -/
def step (c : Controller) (p : Plugin) : Event → Plugin
  | Event.frame m =>
    if p.reader = Reader.running ∧ p.crashed = none then readFrame c p m else p
  | Event.invoke k => if p.crashed = none then runInvocation c p k else p
  | Event.receive rc => if p.crashed = none then receiveResponse c p rc else p

/-- The connection under a schedule of reader steps and goroutine runs. -/
def schedule (c : Controller) (p : Plugin) (evs : List Event) : Plugin :=
  evs.foldl (step c) p

/-- The calls `sendMessage(m)` for the messages of `ms`, one after the other:
the final state and, per call in order, the channel it waits on. -/
def sendAll (p : Plugin) : List Message → Plugin × List Nat
  | [] => (p, [])
  | m :: ms =>
    let r := sendMessage p m
    let s := sendAll r.1 ms
    (s.1, r.2 :: s.2)

/-! ## A value codec for the examples -/

/-- The bytes of a datum: a tag, then the content. -/
def encodeData : Data → List Nat
  | Data.int i => [0, i.toNat, (-i).toNat]
  | Data.str s => 1 :: s.data.map Char.toNat
  | Data.bool b => [2, if b then 1 else 0]
  | Data.bytes b => 3 :: b

/-- The datum of a byte sequence. -/
def decodeData : List Nat → Option Data
  | [0, a, b] => some (Data.int ((a : Int) - (b : Int)))
  | 1 :: cs => some (Data.str (String.mk (cs.map Char.ofNat)))
  | [2, b] => some (Data.bool (decide (b = 1)))
  | 3 :: bs => some (Data.bytes bs)
  | _ => none

/-- A self-describing codec that encodes every value and decodes what it
encoded. -/
def tagCodec : Codec :=
  { Encode := fun i =>
      match i with
      | none => Except.ok [4]
      | some v => Except.ok (encodeData v.data),
    Decode := fun b _ =>
      match decodeData b with
      | some d => Except.ok d
      | none => Except.error "malformed",
    DecodeIface := fun _ _ => Except.ok none }

/-- The round-trip law of a value codec: every value is encoded, and decoding
the bytes into a fresh cell of the value's type gives the value's data. -/
def Codec.RoundTrips (k : Codec) : Prop :=
  ∀ x : Val, ∃ b, k.Encode (some x) = Except.ok b ∧ k.Decode b x.typ = Except.ok x.data

/-! ## The types and functions of the tests and examples -/

/-- The type `int`. -/
def tInt : GoType := { kind := Kind.Int, pkgPath := "", str := "int" }

/-- The type `string`. -/
def tString : GoType := { kind := Kind.String, pkgPath := "", str := "string" }

/-- The type `testStruct` of `controller_test.go`. -/
def tTestStruct : GoType :=
  { kind := Kind.Struct, pkgPath := "github.com/Wessie/gps", str := "gps.testStruct" }

/-- The type `text/template.Template`. -/
def tTextTemplate : GoType :=
  { kind := Kind.Struct, pkgPath := "text/template", str := "template.Template" }

/-- The type `html/template.Template`. -/
def tHtmlTemplate : GoType :=
  { kind := Kind.Struct, pkgPath := "html/template", str := "template.Template" }

/-- The type `io.Reader`, an interface type. -/
def tReader : GoType := { kind := Kind.Interface, pkgPath := "io", str := "io.Reader" }

/-- An `int` as an `interface{}` value. -/
def intVal (i : Int) : Iface := some { typ := tInt, data := Data.int i }

/-- The function `f` of `TestRegisterFunc`: `func(i int) int` returning
`i + 50`. -/
def addFifty : FuncValue :=
  { typ := { kind := Kind.Func, pkgPath := "", str := "func(int) int" },
    sig := { ins := [tInt], outs := [tInt], variadic := false },
    call := fun args =>
      match args with
      | [some { typ := _, data := Data.int i }] => [intVal (i + 50)]
      | _ => [] }

/-! ## Definitions used to state the properties -/

/-- Whether `registerType` accepts the type. -/
def typeable (t : GoType) : Bool :=
  match t.kind with
  | Kind.Interface => false
  | Kind.Func => false
  | _ => true

/-- The type registry after the assignments `r[t.String()] = t` for the types
of `ts`, in order. -/
def overlay (r : String → Option GoType) : List GoType → String → Option GoType
  | [] => r
  | t :: ts => overlay (fun k => if k = t.str then some t else r k) ts

/-- The types of the signatures of `ms` in the order `RegisterInterface`
visits them. -/
def methodTypes : List Signature → List GoType
  | [] => []
  | m :: ms => m.ins ++ m.outs ++ methodTypes ms

/-- The controllers that Register calls build from a new controller. -/
inductive Built : Controller → Prop
  | new (k s : Codec) : Built (NewController k s)
  | newPlugin (k s : Codec) : Built (NewPluginController k s)
  | registerFunc (c : Controller) (identifier : String) (e : Dyn) :
      Built c → Built (RegisterFunc c identifier e).1
  | registerInterface (c : Controller) (e : Dyn) :
      Built c → Built (RegisterInterface c e).1

/-- The type registry of `c` was populated only through `RegisterFunc` and
`RegisterInterface`: it is the type registry of a controller built by them. -/
def Populated (c : Controller) : Prop :=
  ∃ b, Built b ∧ b.TypeRegistry = c.TypeRegistry

/-- A function `func(a text/template.Template, b html/template.Template)`. -/
def renderBoth : FuncValue :=
  { typ := { kind := Kind.Func, pkgPath := "",
             str := "func(template.Template, template.Template)" },
    sig := { ins := [tTextTemplate, tHtmlTemplate], outs := [], variadic := false },
    call := fun _ => [] }

/-- A function `func(i int, r io.Reader)`. -/
def readInto : FuncValue :=
  { typ := { kind := Kind.Func, pkgPath := "", str := "func(int, io.Reader)" },
    sig := { ins := [tInt, tReader], outs := [], variadic := false },
    call := fun _ => [] }

/-- The type `interfaceMethodA` of `controller_test.go`. -/
def tInterfaceMethodA : GoType :=
  { kind := Kind.Interface, pkgPath := "github.com/Wessie/gps", str := "gps.interfaceMethodA" }

/-- The type `mockMethodA` of `controller_test.go`, a `rune`. -/
def tMockMethodA : GoType :=
  { kind := Kind.Int32, pkgPath := "github.com/Wessie/gps", str := "gps.mockMethodA" }

/-- The value `struct{ interfaceMethodA }{mockMethodA('A')}` of
`TestRegisterInterface`; the method is
`MethodA(a, b string, c int) testStruct`. -/
def methodAStruct : StructValue :=
  { typ := { kind := Kind.Struct, pkgPath := "",
             str := "struct { gps.interfaceMethodA }" },
    fields := [{ typ := tInterfaceMethodA,
                 methods := [{ ins := [tString, tString, tInt], outs := [tTestStruct],
                               variadic := false }],
                 held := some tMockMethodA }] }

/-- An interface type with the one method
`Render(a text/template.Template, b html/template.Template)`. -/
def tRenderer : GoType :=
  { kind := Kind.Interface, pkgPath := "example", str := "example.Renderer" }

/-- A struct value with one field of type `Renderer` holding a mock. -/
def rendererStruct : StructValue :=
  { typ := { kind := Kind.Struct, pkgPath := "", str := "struct { example.Renderer }" },
    fields := [{ typ := tRenderer,
                 methods := [{ ins := [tTextTemplate, tHtmlTemplate], outs := [],
                               variadic := false }],
                 held := some tMockMethodA }] }

/-- The requests as `sendMessage` sends them, one after the other, from the
counter value `start`. -/
def stamp (start : Nat) : List Message → List Message
  | [] => []
  | m :: ms =>
    { m with ID := (start + 1) % 2 ^ 64, Result := false } :: stamp ((start + 1) % 2 ^ 64) ms

/-- A request as `CallFunction` builds it, before `sendMessage` stamps it. -/
def pingRequest : Message :=
  { Result := false, ID := 0, FuncID := "hello", InstID := 0, Values := [] }

/-- The response to the call that was assigned id `id`, carrying the int
`n`. -/
def responseTo (id : Nat) (n : Nat) : Message :=
  { Result := true, ID := id, FuncID := "hello", InstID := 0,
    Values := [{ Typ := "int", Value := [0, n, 0] }] }

/-- The request with id `id` for `hello(n)`. -/
def helloRequest (id : Nat) (n : Nat) : Message :=
  { Result := false, ID := id, FuncID := "hello", InstID := 0,
    Values := [{ Typ := "int", Value := [0, n, 0] }] }

/-- A plugin-side controller with `hello` registered as in the tests. -/
def helloController : Controller :=
  (RegisterFunc (NewPluginController tagCodec tagCodec) "hello" (Dyn.func addFifty)).1

/-! ## The type registry under the Register calls -/

theorem typeable_iff (t : GoType) :
    typeable t = true ↔ t.kind ≠ Kind.Interface ∧ t.kind ≠ Kind.Func := by
  unfold typeable
  cases h : t.kind <;> simp

theorem registerType_ok (c : Controller) (t : GoType) (h : typeable t = true) :
    registerType c t =
      ({ c with TypeRegistry := fun k => if k = t.str then some t else c.TypeRegistry k },
       none) := by
  unfold typeable at h
  unfold registerType
  cases hk : t.kind <;> simp_all

theorem registerType_bad (c : Controller) (t : GoType) (h : typeable t = false) :
    (registerType c t).1 = c ∧ (registerType c t).2.isSome = true := by
  unfold typeable at h
  unfold registerType
  cases hk : t.kind <;> simp_all

theorem registerTypes_eq (c : Controller) (ts : List GoType) :
    (registerTypes c ts).1 =
        { c with TypeRegistry := overlay c.TypeRegistry (ts.takeWhile typeable) } ∧
      ((registerTypes c ts).2 = none ↔ ∀ t ∈ ts, typeable t = true) := by
  induction ts generalizing c with
  | nil => simp [registerTypes, overlay]
  | cons t ts ih =>
    by_cases h : typeable t = true
    · have h1 := registerType_ok c t h
      simp only [registerTypes, h1, List.takeWhile_cons, h, if_true, overlay]
      have := ih { c with TypeRegistry := fun k => if k = t.str then some t else c.TypeRegistry k }
      refine ⟨this.1, ?_⟩
      rw [this.2]
      simp [h]
    · have hf : typeable t = false := by simpa using h
      have h1 := registerType_bad c t hf
      have h2 : registerTypes c (t :: ts) = ((registerType c t).1, (registerType c t).2) := by
        cases hr : registerType c t with
        | mk c1 o =>
          cases o with
          | none => rw [hr] at h1; simp at h1
          | some msg => simp [registerTypes, hr]
      rw [h2]
      refine ⟨?_, ?_⟩
      · simp [h1.1, List.takeWhile_cons, hf, overlay]
      · constructor
        · intro hn
          have h3 := h1.2
          simp only at hn
          rw [hn] at h3
          simp at h3
        · intro hall
          exact absurd (hall t (List.mem_cons_self _ _)) h

theorem registerTypes_fault (c : Controller) (ts : List GoType) :
    (registerTypes c ts).2 = none ∨
      (registerTypes c ts).2 = some "Unsupported interface arguments" ∨
      (registerTypes c ts).2 = some "Unsupported function arguments" := by
  induction ts generalizing c with
  | nil => left; rfl
  | cons t ts ih =>
    by_cases h : typeable t = true
    · simp only [registerTypes, registerType_ok c t h]
      exact ih _
    · unfold typeable at h
      simp only [registerTypes, registerType]
      cases hk : t.kind <;> simp_all

theorem registerTypes_append (c : Controller) (l1 l2 : List GoType) :
    (match registerTypes c l1 with
      | (c2, some msg) => (c2, some msg)
      | (c2, none) => registerTypes c2 l2) = registerTypes c (l1 ++ l2) := by
  induction l1 generalizing c with
  | nil => simp [registerTypes]
  | cons t ts ih =>
    cases hr : registerType c t with
    | mk c1 o =>
      cases o with
      | none => simp only [registerTypes, hr, List.cons_append]; exact ih c1
      | some msg => simp [registerTypes, hr]

theorem registerMethods_eq (c : Controller) (ms : List Signature) :
    registerMethods c ms = registerTypes c (methodTypes ms) := by
  induction ms generalizing c with
  | nil => simp [registerMethods, methodTypes, registerTypes]
  | cons m ms ih =>
    simp only [registerMethods, methodTypes]
    rw [List.append_assoc, ← registerTypes_append c m.ins]
    cases h1 : registerTypes c m.ins with
    | mk c1 o1 =>
      cases o1 with
      | some msg => simp
      | none =>
        simp only
        rw [← registerTypes_append c1 m.outs]
        cases h2 : registerTypes c1 m.outs with
        | mk c2 o2 =>
          cases o2 with
          | some msg => simp
          | none => simp only; exact ih c2

theorem overlay_other (r : String → Option GoType) (ts : List GoType) (k : String)
    (h : ∀ t ∈ ts, t.str ≠ k) : overlay r ts k = r k := by
  induction ts generalizing r with
  | nil => rfl
  | cons t ts ih =>
    simp only [overlay]
    rw [ih _ (fun u hu => h u (List.mem_cons_of_mem _ hu))]
    have := h t (List.mem_cons_self _ _)
    simp [Ne.symm this]

theorem overlay_mem (r : String → Option GoType) (ts : List GoType) (t : GoType)
    (h : t ∈ ts) : ∃ u ∈ ts, u.str = t.str ∧ overlay r ts t.str = some u := by
  induction ts generalizing r t with
  | nil => simp at h
  | cons a ts ih =>
    by_cases hin : ∃ u ∈ ts, u.str = t.str
    · obtain ⟨u, hu, hus⟩ := hin
      obtain ⟨w, hw, hws, hov⟩ := ih (fun k => if k = a.str then some a else r k) u hu
      refine ⟨w, List.mem_cons_of_mem _ hw, hws.trans hus, ?_⟩
      simp only [overlay]
      rw [← hus]; exact hov
    · have hne : ∀ u ∈ ts, u.str ≠ t.str := fun u hu he => hin ⟨u, hu, he⟩
      have hta : t = a := by
        rcases List.mem_cons.mp h with h1 | h1
        · exact h1
        · exact absurd rfl (hne t h1)
      subst hta
      refine ⟨t, List.mem_cons_self _ _, rfl, ?_⟩
      simp only [overlay]
      rw [overlay_other _ ts t.str hne]
      simp

theorem overlay_unique (r : String → Option GoType) (ts : List GoType) (t : GoType)
    (h : t ∈ ts) (hu : ∀ u ∈ ts, u.str = t.str → u = t) : overlay r ts t.str = some t := by
  obtain ⟨u, hu1, hu2, hu3⟩ := overlay_mem r ts t h
  rw [hu3, hu u hu1 hu2]

theorem overlay_typeable (r : String → Option GoType) (ts : List GoType)
    (hr : ∀ k t, r k = some t → typeable t = true) (hts : ∀ t ∈ ts, typeable t = true) :
    ∀ k t, overlay r ts k = some t → typeable t = true := by
  induction ts generalizing r with
  | nil => exact hr
  | cons a ts ih =>
    simp only [overlay]
    apply ih
    · intro k t
      by_cases hk : k = a.str
      · simp only [hk, if_true, Option.some.injEq]
        intro e; subst e; exact hts _ (List.mem_cons_self _ _)
      · simp only [hk, if_false]; exact hr k t
    · exact fun t ht => hts t (List.mem_cons_of_mem _ ht)

theorem overlay_last (r : String → Option GoType) (ts : List GoType) (k : String) :
    overlay r ts k =
      match (ts.filter (fun u => decide (u.str = k))).getLast? with
      | some u => some u
      | none => r k := by
  induction ts generalizing r with
  | nil => simp [overlay]
  | cons a ts ih =>
    simp only [overlay]
    rw [ih]
    by_cases ha : a.str = k
    · simp only [List.filter_cons, ha, decide_True, if_true]
      cases hl : List.filter (fun u => decide (u.str = k)) ts with
      | nil => simp [ha]
      | cons b l =>
        have hne : (b :: l).getLast? = some ((b :: l).getLast (by simp)) :=
          List.getLast?_eq_getLast _ _
        simp only [List.getLast?_cons_cons, hne]
    · have hk : ¬ k = a.str := fun e => ha e.symm
      simp only [List.filter_cons, ha, decide_False, hk, if_false]
      rfl

theorem overlay_last_mem (r : String → Option GoType) (ts : List GoType) (t : GoType)
    (h : t ∈ ts) :
    overlay r ts t.str = (ts.filter (fun u => decide (u.str = t.str))).getLast? := by
  rw [overlay_last]
  have hm : t ∈ ts.filter (fun u => decide (u.str = t.str)) := by
    simp [List.mem_filter, h]
  cases hl : (ts.filter (fun u => decide (u.str = t.str))).getLast? with
  | some u => rfl
  | none =>
    rw [List.getLast?_eq_none_iff] at hl
    rw [hl] at hm
    simp at hm

theorem mem_methodTypes (ms : List Signature) (t : GoType) :
    t ∈ methodTypes ms ↔ ∃ m ∈ ms, t ∈ m.ins ++ m.outs := by
  induction ms with
  | nil => simp [methodTypes]
  | cons m ms ih =>
    simp only [methodTypes, List.mem_append, List.mem_cons, exists_eq_or_imp]
    rw [ih]
    simp [List.mem_append]

theorem takeWhile_all {α : Type} (p : α → Bool) (l : List α) (h : ∀ a ∈ l, p a = true) :
    l.takeWhile p = l := by
  induction l with
  | nil => rfl
  | cons a l ih =>
    simp only [List.takeWhile_cons, h a (List.mem_cons_self _ _), if_true]
    rw [ih (fun b hb => h b (List.mem_cons_of_mem _ hb))]

theorem RegisterFunc_eq (c : Controller) (identifier : String) (f : FuncValue) :
    RegisterFunc c identifier (Dyn.func f) =
      registerTypes
        { c with FuncRegistry := fun k =>
            if k = identifier then some (if f.sig.variadic then f.CallSlice else f.Call)
            else c.FuncRegistry k }
        (f.sig.ins ++ f.sig.outs) := by
  rw [← registerTypes_append]
  simp only [RegisterFunc]

theorem RegisterInterface_eq (c : Controller) (s : StructValue) (fld : FieldValue)
    (mt : GoType) (hs : s.fields = [fld])
    (hi : fld.typ.kind = Kind.Interface ∨ fld.typ.kind = Kind.Ptr) (hm : fld.held = some mt) :
    RegisterInterface c (Dyn.struct s) =
      registerTypes
        { c with InterfaceRegistry := fun k =>
            if k = fld.typ then some mt else c.InterfaceRegistry k }
        (methodTypes fld.methods) := by
  simp only [RegisterInterface, hs, hi, hm, if_true]
  exact registerMethods_eq _ _

theorem RegisterFunc_types (c : Controller) (identifier : String) (e : Dyn) :
    ∃ ts, (∀ t ∈ ts, typeable t = true) ∧
      (RegisterFunc c identifier e).1.TypeRegistry = overlay c.TypeRegistry ts := by
  cases e with
  | nil => exact ⟨[], by simp, rfl⟩
  | data v => exact ⟨[], by simp, rfl⟩
  | struct s => exact ⟨[], by simp, rfl⟩
  | func f =>
    refine ⟨(f.sig.ins ++ f.sig.outs).takeWhile typeable,
      fun t ht => (List.mem_takeWhile_imp ht), ?_⟩
    rw [RegisterFunc_eq, (registerTypes_eq _ _).1]

theorem RegisterInterface_types (c : Controller) (e : Dyn) :
    ∃ ts, (∀ t ∈ ts, typeable t = true) ∧
      (RegisterInterface c e).1.TypeRegistry = overlay c.TypeRegistry ts := by
  cases e with
  | nil => exact ⟨[], by simp, rfl⟩
  | data v => exact ⟨[], by simp, rfl⟩
  | func f => exact ⟨[], by simp, rfl⟩
  | struct s =>
    cases hf : s.fields with
    | nil => exact ⟨[], by simp, by simp [RegisterInterface, hf, overlay]⟩
    | cons fld rest =>
      cases rest with
      | cons f2 r2 => exact ⟨[], by simp, by simp [RegisterInterface, hf, overlay]⟩
      | nil =>
        by_cases hk : fld.typ.kind = Kind.Interface ∨ fld.typ.kind = Kind.Ptr
        · cases hh : fld.held with
          | none => exact ⟨[], by simp, by simp [RegisterInterface, hf, hk, hh, overlay]⟩
          | some mt =>
            refine ⟨(methodTypes fld.methods).takeWhile typeable,
              fun t ht => (List.mem_takeWhile_imp ht), ?_⟩
            rw [RegisterInterface_eq c s fld mt hf hk hh, (registerTypes_eq _ _).1]
        · exact ⟨[], by simp, by simp [RegisterInterface, hf, hk, overlay]⟩

theorem Built.typeable {c : Controller} (h : Built c) :
    ∀ k t, c.TypeRegistry k = some t → typeable t = true := by
  induction h with
  | new k s => intro k t h; simp [NewController] at h
  | newPlugin k s => intro k t h; simp [NewPluginController, NewController] at h
  | registerFunc c identifier e _ ih =>
    obtain ⟨ts, hts, he⟩ := RegisterFunc_types c identifier e
    rw [he]
    exact overlay_typeable _ ts ih hts
  | registerInterface c e _ ih =>
    obtain ⟨ts, hts, he⟩ := RegisterInterface_types c e
    rw [he]
    exact overlay_typeable _ ts ih hts

theorem Populated.not_interface {c : Controller} (h : Populated c) (k : String) (t : GoType)
    (hk : c.TypeRegistry k = some t) : t.kind ≠ Kind.Interface := by
  obtain ⟨b, hb, he⟩ := h
  have := hb.typeable k t (by rw [he]; exact hk)
  exact ((typeable_iff t).mp this).1

theorem tagCodec_roundTrips : tagCodec.RoundTrips := by
  intro x
  refine ⟨encodeData x.data, rfl, ?_⟩
  show (match decodeData (encodeData x.data) with
    | some d => Except.ok d
    | none => Except.error "malformed") = Except.ok x.data
  have h : decodeData (encodeData x.data) = some x.data := by
    cases x.data with
    | int i => simp [encodeData, decodeData, Int.toNat_sub_toNat_neg]
    | str s =>
      simp only [encodeData, decodeData, List.map_map]
      have : (Char.ofNat ∘ Char.toNat) = id := by
        funext ch; simp [Char.ofNat_toNat]
      rw [this, List.map_id]
    | bool b => cases b <;> simp [encodeData, decodeData]
    | bytes b => simp [encodeData, decodeData]
  rw [h]

/-! ## C7: `RegisterFunc` on an accepted function -/

/-- C7 as amended. When no parameter or return type of `f` is an interface or
function type, `RegisterFunc(id, f)` succeeds; the function registry maps `id`
to the adapter of `f`, which returns the results of `f` on the arguments that
reflect accepts; the type registry maps the name of every parameter and return
type to the last type of the signature (parameters, then returns) with that
name, which is the type itself when no other type of the signature has its
name; all other entries of both registries, and the interface registry, are
unchanged. -/
theorem C7_registerFunc (c : Controller) (identifier : String) (f : FuncValue)
    (hf : ∀ t ∈ f.sig.ins ++ f.sig.outs, t.kind ≠ Kind.Interface ∧ t.kind ≠ Kind.Func) :
    (RegisterFunc c identifier (Dyn.func f)).2 = none ∧
    (RegisterFunc c identifier (Dyn.func f)).1.FuncRegistry identifier =
      some (if f.sig.variadic then f.CallSlice else f.Call) ∧
    (∀ args, checkArgs f.sig.ins args = none →
      (if f.sig.variadic then f.CallSlice else f.Call) args = Except.ok (f.call args)) ∧
    (∀ k, k ≠ identifier →
      (RegisterFunc c identifier (Dyn.func f)).1.FuncRegistry k = c.FuncRegistry k) ∧
    (∀ t ∈ f.sig.ins ++ f.sig.outs,
      (RegisterFunc c identifier (Dyn.func f)).1.TypeRegistry t.str =
        ((f.sig.ins ++ f.sig.outs).filter (fun u => decide (u.str = t.str))).getLast?) ∧
    (∀ t ∈ f.sig.ins ++ f.sig.outs,
      (∀ u ∈ f.sig.ins ++ f.sig.outs, u.str = t.str → u = t) →
      (RegisterFunc c identifier (Dyn.func f)).1.TypeRegistry t.str = some t) ∧
    (∀ k, (∀ t ∈ f.sig.ins ++ f.sig.outs, t.str ≠ k) →
      (RegisterFunc c identifier (Dyn.func f)).1.TypeRegistry k = c.TypeRegistry k) ∧
    (RegisterFunc c identifier (Dyn.func f)).1.InterfaceRegistry = c.InterfaceRegistry := by
  have hall : ∀ t ∈ f.sig.ins ++ f.sig.outs, typeable t = true :=
    fun t ht => (typeable_iff t).mpr (hf t ht)
  have h1 := registerTypes_eq
    { c with FuncRegistry := fun k =>
        if k = identifier then some (if f.sig.variadic then f.CallSlice else f.Call)
        else c.FuncRegistry k } (f.sig.ins ++ f.sig.outs)
  rw [← RegisterFunc_eq, takeWhile_all _ _ hall] at h1
  refine ⟨h1.2.mpr hall, ?_, ?_, ?_, ?_, ?_, ?_, ?_⟩
  · rw [h1.1]; simp
  · intro args ha
    by_cases hv : f.sig.variadic = true
    · simp [hv, FuncValue.CallSlice, ha]
    · simp [hv, FuncValue.Call, ha]
  · intro k hk; rw [h1.1]; simp [hk]
  · intro t ht; rw [h1.1]; exact overlay_last_mem _ _ t ht
  · intro t ht hu; rw [h1.1]; exact overlay_unique _ _ t ht hu
  · intro k hk; rw [h1.1]; exact overlay_other _ _ k hk
  · rw [h1.1]

/-- C7, witness. The function of `TestRegisterFunc` registered as `hello` on a
new controller: the call succeeds and the type registry maps `int` to the type
`int`. -/
theorem C7_registerFunc_witness :
    (∀ t ∈ addFifty.sig.ins ++ addFifty.sig.outs,
      t.kind ≠ Kind.Interface ∧ t.kind ≠ Kind.Func) ∧
    (RegisterFunc (NewController tagCodec tagCodec) "hello" (Dyn.func addFifty)).2 = none ∧
    (RegisterFunc (NewController tagCodec tagCodec) "hello"
        (Dyn.func addFifty)).1.TypeRegistry "int" = some tInt :=
  ⟨by decide,
   (C7_registerFunc (NewController tagCodec tagCodec) "hello" addFifty (by decide)).1,
   (C7_registerFunc (NewController tagCodec tagCodec) "hello" addFifty
      (by decide)).2.2.2.2.2.1 tInt (by decide) (by decide)⟩

/-- C7, counterexample. `func(a text/template.Template, b html/template.Template)`
has no interface or function type in its signature and `RegisterFunc` accepts
it, yet afterwards the type registry maps the name `template.Template` of the
parameter type `text/template.Template` to `html/template.Template`, not to
that type. -/
theorem C7_same_name_types_collide :
    (∀ t ∈ renderBoth.sig.ins ++ renderBoth.sig.outs,
      t.kind ≠ Kind.Interface ∧ t.kind ≠ Kind.Func) ∧
    tTextTemplate ∈ renderBoth.sig.ins ∧
    (RegisterFunc (NewController tagCodec tagCodec) "render" (Dyn.func renderBoth)).2 = none ∧
    (RegisterFunc (NewController tagCodec tagCodec) "render"
        (Dyn.func renderBoth)).1.TypeRegistry tTextTemplate.str = some tHtmlTemplate ∧
    (RegisterFunc (NewController tagCodec tagCodec) "render"
        (Dyn.func renderBoth)).1.TypeRegistry tTextTemplate.str ≠ some tTextTemplate := by
  refine ⟨by decide, by decide, rfl, rfl, ?_⟩
  show some tHtmlTemplate ≠ some tTextTemplate
  decide

/-! ## C8: `RegisterInterface` -/

/-- C8 as amended. For a single-field struct whose field has interface type
`I` and holds a non-nil mock of dynamic type `M`, where no method of `I` has an
interface-typed or function-typed parameter or result, `RegisterInterface`
succeeds and records `I -> M` in the interface registry; the type registry
maps the name of every parameter and return type of every method to the last
type of the methods (in method order, parameters before returns) with that
name, which is the type itself when no other type of the methods has its
name; the other entries of the registries are unchanged. -/
theorem C8_registerInterface (c : Controller) (s : StructValue) (fld : FieldValue)
    (mt : GoType) (hs : s.fields = [fld]) (hi : fld.typ.kind = Kind.Interface)
    (hm : fld.held = some mt)
    (hok : ∀ m ∈ fld.methods, ∀ t ∈ m.ins ++ m.outs,
      t.kind ≠ Kind.Interface ∧ t.kind ≠ Kind.Func) :
    (RegisterInterface c (Dyn.struct s)).2 = none ∧
    (RegisterInterface c (Dyn.struct s)).1.InterfaceRegistry fld.typ = some mt ∧
    (∀ k, k ≠ fld.typ →
      (RegisterInterface c (Dyn.struct s)).1.InterfaceRegistry k = c.InterfaceRegistry k) ∧
    (∀ m ∈ fld.methods, ∀ t ∈ m.ins ++ m.outs,
      (RegisterInterface c (Dyn.struct s)).1.TypeRegistry t.str =
        ((methodTypes fld.methods).filter (fun u => decide (u.str = t.str))).getLast?) ∧
    (∀ m ∈ fld.methods, ∀ t ∈ m.ins ++ m.outs,
      (∀ u ∈ methodTypes fld.methods, u.str = t.str → u = t) →
      (RegisterInterface c (Dyn.struct s)).1.TypeRegistry t.str = some t) ∧
    (∀ k, (∀ t ∈ methodTypes fld.methods, t.str ≠ k) →
      (RegisterInterface c (Dyn.struct s)).1.TypeRegistry k = c.TypeRegistry k) ∧
    (RegisterInterface c (Dyn.struct s)).1.FuncRegistry = c.FuncRegistry := by
  have hall : ∀ t ∈ methodTypes fld.methods, typeable t = true := by
    intro t ht
    obtain ⟨m, hm1, hm2⟩ := (mem_methodTypes _ t).mp ht
    exact (typeable_iff t).mpr (hok m hm1 t hm2)
  have h1 := registerTypes_eq
    { c with InterfaceRegistry := fun k =>
        if k = fld.typ then some mt else c.InterfaceRegistry k } (methodTypes fld.methods)
  rw [← RegisterInterface_eq c s fld mt hs (Or.inl hi) hm, takeWhile_all _ _ hall] at h1
  refine ⟨h1.2.mpr hall, ?_, ?_, ?_, ?_, ?_, ?_⟩
  · rw [h1.1]; simp
  · intro k hk; rw [h1.1]; simp [hk]
  · intro m hm1 t ht; rw [h1.1]
    exact overlay_last_mem _ _ t ((mem_methodTypes _ t).mpr ⟨m, hm1, ht⟩)
  · intro m hm1 t ht hu; rw [h1.1]
    exact overlay_unique _ _ t ((mem_methodTypes _ t).mpr ⟨m, hm1, ht⟩) hu
  · intro k hk; rw [h1.1]; exact overlay_other _ _ k hk
  · rw [h1.1]

/-- C8, witness. The value of `TestRegisterInterface`: after registering
`interfaceMethodA` with the mock `mockMethodA` on a new controller the
interface registry maps the one to the other and the type registry contains
`string`, `int` and `testStruct`. -/
theorem C8_registerInterface_witness :
    methodAStruct.fields.length = 1 ∧
    (RegisterInterface (NewController tagCodec tagCodec) (Dyn.struct methodAStruct)).2 = none ∧
    (RegisterInterface (NewController tagCodec tagCodec)
        (Dyn.struct methodAStruct)).1.InterfaceRegistry tInterfaceMethodA = some tMockMethodA ∧
    (RegisterInterface (NewController tagCodec tagCodec)
        (Dyn.struct methodAStruct)).1.TypeRegistry "string" = some tString ∧
    (RegisterInterface (NewController tagCodec tagCodec)
        (Dyn.struct methodAStruct)).1.TypeRegistry "int" = some tInt ∧
    (RegisterInterface (NewController tagCodec tagCodec)
        (Dyn.struct methodAStruct)).1.TypeRegistry "gps.testStruct" = some tTestStruct :=
  have h := C8_registerInterface (NewController tagCodec tagCodec) methodAStruct
    { typ := tInterfaceMethodA,
      methods := [{ ins := [tString, tString, tInt], outs := [tTestStruct], variadic := false }],
      held := some tMockMethodA }
    tMockMethodA rfl rfl rfl (by decide)
  ⟨rfl, h.1, h.2.1,
   h.2.2.2.2.1 _ (List.mem_singleton.mpr rfl) tString (by decide) (by decide),
   h.2.2.2.2.1 _ (List.mem_singleton.mpr rfl) tInt (by decide) (by decide),
   h.2.2.2.2.1 _ (List.mem_singleton.mpr rfl) tTestStruct (by decide) (by decide)⟩

/-- C8, counterexample. An interface with the method
`Render(a text/template.Template, b html/template.Template)` and a non-nil
mock: `RegisterInterface` succeeds, and the type registry then maps the name
`template.Template` to `html/template.Template`, so the parameter type
`text/template.Template` is not in it. -/
theorem C8_same_name_types_collide :
    rendererStruct.fields.map (fun fld => (fld.typ, fld.held)) =
      [(tRenderer, some tMockMethodA)] ∧
    tRenderer.kind = Kind.Interface ∧
    (∀ fld ∈ rendererStruct.fields, ∀ m ∈ fld.methods, ∀ t ∈ m.ins ++ m.outs,
      t.kind ≠ Kind.Interface ∧ t.kind ≠ Kind.Func) ∧
    (∃ fld ∈ rendererStruct.fields, ∃ m ∈ fld.methods, tTextTemplate ∈ m.ins) ∧
    (RegisterInterface (NewController tagCodec tagCodec) (Dyn.struct rendererStruct)).2 = none ∧
    (RegisterInterface (NewController tagCodec tagCodec)
        (Dyn.struct rendererStruct)).1.TypeRegistry tTextTemplate.str = some tHtmlTemplate ∧
    (RegisterInterface (NewController tagCodec tagCodec)
        (Dyn.struct rendererStruct)).1.TypeRegistry tTextTemplate.str ≠ some tTextTemplate := by
  refine ⟨rfl, rfl, by decide, by decide, rfl, rfl, ?_⟩
  show some tHtmlTemplate ≠ some tTextTemplate
  decide

/-! ## C10: `RegisterFunc` on a rejected function -/

/-- C10 as amended. `RegisterFunc` rejects every function that has an
interface-typed or function-typed parameter or return value: the call panics.
The failed call has stored the adapter under the identifier and has registered
the parameter and return types that precede the first rejected type; the
function registry under every other identifier, the type registry under every
other name, and the interface registry are as before the call. -/
theorem C10_registerFunc_rejects (c : Controller) (identifier : String) (f : FuncValue)
    (hbad : ∃ t ∈ f.sig.ins ++ f.sig.outs, t.kind = Kind.Interface ∨ t.kind = Kind.Func) :
    ((RegisterFunc c identifier (Dyn.func f)).2 = some "Unsupported interface arguments" ∨
      (RegisterFunc c identifier (Dyn.func f)).2 = some "Unsupported function arguments") ∧
    (RegisterFunc c identifier (Dyn.func f)).1.FuncRegistry identifier =
      some (if f.sig.variadic then f.CallSlice else f.Call) ∧
    (∀ k, k ≠ identifier →
      (RegisterFunc c identifier (Dyn.func f)).1.FuncRegistry k = c.FuncRegistry k) ∧
    (∀ t ∈ (f.sig.ins ++ f.sig.outs).takeWhile typeable,
      (RegisterFunc c identifier (Dyn.func f)).1.TypeRegistry t.str =
        (((f.sig.ins ++ f.sig.outs).takeWhile typeable).filter
          (fun u => decide (u.str = t.str))).getLast?) ∧
    (∀ k, (∀ t ∈ (f.sig.ins ++ f.sig.outs).takeWhile typeable, t.str ≠ k) →
      (RegisterFunc c identifier (Dyn.func f)).1.TypeRegistry k = c.TypeRegistry k) ∧
    (RegisterFunc c identifier (Dyn.func f)).1.InterfaceRegistry = c.InterfaceRegistry := by
  have h1 := registerTypes_eq
    { c with FuncRegistry := fun k =>
        if k = identifier then some (if f.sig.variadic then f.CallSlice else f.Call)
        else c.FuncRegistry k } (f.sig.ins ++ f.sig.outs)
  have h2 := registerTypes_fault
    { c with FuncRegistry := fun k =>
        if k = identifier then some (if f.sig.variadic then f.CallSlice else f.Call)
        else c.FuncRegistry k } (f.sig.ins ++ f.sig.outs)
  rw [← RegisterFunc_eq] at h1 h2
  refine ⟨?_, ?_, ?_, ?_, ?_, ?_⟩
  · rcases h2 with h2 | h2
    · exfalso
      obtain ⟨t, ht, hk⟩ := hbad
      have := (typeable_iff t).mp (h1.2.mp h2 t ht)
      rcases hk with hk | hk
      · exact this.1 hk
      · exact this.2 hk
    · exact h2
  · rw [h1.1]; simp
  · intro k hk; rw [h1.1]; simp [hk]
  · intro t ht; rw [h1.1]; exact overlay_last_mem _ _ t ht
  · intro k hk; rw [h1.1]; exact overlay_other _ _ k hk
  · rw [h1.1]

/-- C10, witness. `func(i int, r io.Reader)` registered as `read` on a new
controller: the call panics and the other identifiers keep their entries. -/
theorem C10_registerFunc_rejects_witness :
    (∃ t ∈ readInto.sig.ins ++ readInto.sig.outs,
      t.kind = Kind.Interface ∨ t.kind = Kind.Func) ∧
    ((RegisterFunc (NewController tagCodec tagCodec) "read" (Dyn.func readInto)).2 =
        some "Unsupported interface arguments" ∨
      (RegisterFunc (NewController tagCodec tagCodec) "read" (Dyn.func readInto)).2 =
        some "Unsupported function arguments") ∧
    (∀ k, k ≠ "read" →
      (RegisterFunc (NewController tagCodec tagCodec) "read"
        (Dyn.func readInto)).1.FuncRegistry k = (NewController tagCodec tagCodec).FuncRegistry k) :=
  ⟨⟨tReader, by decide, Or.inl rfl⟩,
   (C10_registerFunc_rejects (NewController tagCodec tagCodec) "read" readInto
      ⟨tReader, by decide, Or.inl rfl⟩).1,
   (C10_registerFunc_rejects (NewController tagCodec tagCodec) "read" readInto
      ⟨tReader, by decide, Or.inl rfl⟩).2.2.1⟩

/-- C10, counterexample. `RegisterFunc("read", func(i int, r io.Reader))` on a
new controller panics, and after the failed call the function registry has an
entry for `read` and the type registry an entry for `int`, neither of which
was there before. -/
theorem C10_failed_call_mutates :
    (∃ t ∈ readInto.sig.ins ++ readInto.sig.outs,
      t.kind = Kind.Interface ∨ t.kind = Kind.Func) ∧
    (RegisterFunc (NewController tagCodec tagCodec) "read" (Dyn.func readInto)).2 =
      some "Unsupported interface arguments" ∧
    (NewController tagCodec tagCodec).FuncRegistry "read" = none ∧
    ((RegisterFunc (NewController tagCodec tagCodec) "read"
        (Dyn.func readInto)).1.FuncRegistry "read").isSome = true ∧
    (NewController tagCodec tagCodec).TypeRegistry "int" = none ∧
    (RegisterFunc (NewController tagCodec tagCodec) "read"
        (Dyn.func readInto)).1.TypeRegistry "int" = some tInt :=
  ⟨⟨tReader, by decide, Or.inl rfl⟩, rfl, rfl, rfl, rfl, rfl⟩

/-! ## C9: the results of `DecodeValue` -/

/-- C9. For a controller whose type registry was populated only through
`RegisterFunc` and `RegisterInterface`, `DecodeValue(v)` is nil exactly when
`v.Type` is absent from the type registry or the value codec fails to decode
`v.Value` into a fresh instance of the registered type; otherwise it is the
decoded instance, a non-nil value of the type registered under `v.Type`. -/
theorem C9_decodeValue_nil_iff (c : Controller) (hc : Populated c) (v : Value) :
    (DecodeValue c v = none ↔
        (c.TypeRegistry v.Typ = none ∨
          ∃ t err, c.TypeRegistry v.Typ = some t ∧
            c.ValueCodec.Decode v.Value t = Except.error err)) ∧
      (∀ t d, c.TypeRegistry v.Typ = some t → c.ValueCodec.Decode v.Value t = Except.ok d →
        DecodeValue c v = some { typ := t, data := d }) := by
  unfold DecodeValue
  cases ht : c.TypeRegistry v.Typ with
  | none => simp
  | some t =>
    have hk := hc.not_interface v.Typ t ht
    simp only [hk, if_false]
    cases hd : c.ValueCodec.Decode v.Value t with
    | error err =>
      simp only [false_or, reduceCtorEq, Option.some.injEq, true_iff]
      refine ⟨⟨t, err, rfl, hd⟩, ?_⟩
      intro t1 d e h
      subst e
      rw [hd] at h
      cases h
    | ok d =>
      simp only [false_or, reduceCtorEq, Option.some.injEq, false_iff]
      refine ⟨?_, ?_⟩
      · rintro ⟨t1, err, e, h⟩
        subst e
        rw [hd] at h
        cases h
      · intro t1 d1 e h
        subst e
        rw [hd] at h
        cases h
        rfl

/-- C9, witness. On a controller with `func(int) int` registered, a Value of
type `int` decodes to a non-nil int and a Value of the unregistered type name
`string` decodes to nil. -/
theorem C9_decodeValue_nil_iff_witness :
    Populated (RegisterFunc (NewController tagCodec tagCodec) "hello" (Dyn.func addFifty)).1 ∧
    DecodeValue
        (RegisterFunc (NewController tagCodec tagCodec) "hello" (Dyn.func addFifty)).1
        { Typ := "int", Value := [0, 50, 0] } = intVal 50 ∧
    DecodeValue
        (RegisterFunc (NewController tagCodec tagCodec) "hello" (Dyn.func addFifty)).1
        { Typ := "string", Value := [0, 50, 0] } = none :=
  ⟨⟨_, Built.registerFunc _ _ _ (Built.new _ _), rfl⟩,
   (C9_decodeValue_nil_iff
      (RegisterFunc (NewController tagCodec tagCodec) "hello" (Dyn.func addFifty)).1
      ⟨_, Built.registerFunc _ _ _ (Built.new _ _), rfl⟩
      { Typ := "int", Value := [0, 50, 0] }).2 tInt (Data.int 50) rfl rfl,
   (C9_decodeValue_nil_iff
      (RegisterFunc (NewController tagCodec tagCodec) "hello" (Dyn.func addFifty)).1
      ⟨_, Built.registerFunc _ _ _ (Built.new _ _), rfl⟩
      { Typ := "string", Value := [0, 50, 0] }).1.mpr (Or.inl rfl)⟩

/-! ## C2: the round trip through `EncodeValue` and `DecodeValue` -/

/-- C2 as amended. For a controller built by Register calls whose value codec
satisfies the round-trip law, and a value `v` whose dynamic type is the type
the type registry holds under the name of that type, `EncodeValue(v)` succeeds
with a Value whose `Type` is the name of the type of `v`, and `DecodeValue` of
that Value is `v`. -/
theorem C2_roundtrip_registered (c : Controller) (hc : Populated c)
    (hrt : c.ValueCodec.RoundTrips) (v : Val)
    (hreg : c.TypeRegistry v.typ.str = some v.typ) :
    ∃ w, EncodeValue c (some v) = Except.ok w ∧ w.Typ = v.typ.str ∧
      DecodeValue c w = some v := by
  obtain ⟨b, hb, hd⟩ := hrt v
  have hk := hc.not_interface _ _ hreg
  refine ⟨{ Typ := v.typ.str, Value := b }, ?_, rfl, ?_⟩
  · simp [EncodeValue, hb]
  · simp [DecodeValue, hreg, hk, hd]

/-- C2, witness. On a controller with `func(int) int` registered, the int 50
is encoded with `Type = "int"` and decoded back to the int 50. -/
theorem C2_roundtrip_registered_witness :
    Populated (RegisterFunc (NewController tagCodec tagCodec) "hello" (Dyn.func addFifty)).1 ∧
    tagCodec.RoundTrips ∧
    ∃ w, EncodeValue
          (RegisterFunc (NewController tagCodec tagCodec) "hello" (Dyn.func addFifty)).1
          (intVal 50) = Except.ok w ∧
      w.Typ = "int" ∧
      DecodeValue
          (RegisterFunc (NewController tagCodec tagCodec) "hello" (Dyn.func addFifty)).1 w =
        intVal 50 :=
  ⟨⟨_, Built.registerFunc _ _ _ (Built.new _ _), rfl⟩, tagCodec_roundTrips,
   C2_roundtrip_registered
     (RegisterFunc (NewController tagCodec tagCodec) "hello" (Dyn.func addFifty)).1
     ⟨_, Built.registerFunc _ _ _ (Built.new _ _), rfl⟩ tagCodec_roundTrips
     { typ := tInt, data := Data.int 50 } rfl⟩

/-- C2, counterexample. The codec satisfies the round-trip law and
`text/template.Template` was registered through `RegisterFunc`, as a parameter
type of `func(a text/template.Template, b html/template.Template)`. A value of
that type is encoded with `Type = "template.Template"`, and `DecodeValue` of
the result is a value of type `html/template.Template`, not the value. -/
theorem C2_same_name_type_decodes_as_other :
    tagCodec.RoundTrips ∧
    tTextTemplate ∈ renderBoth.sig.ins ∧
    (RegisterFunc (NewController tagCodec tagCodec) "render" (Dyn.func renderBoth)).2 = none ∧
    EncodeValue
        (RegisterFunc (NewController tagCodec tagCodec) "render" (Dyn.func renderBoth)).1
        (some { typ := tTextTemplate, data := Data.str "page" }) =
      Except.ok { Typ := "template.Template", Value := [1, 112, 97, 103, 101] } ∧
    DecodeValue
        (RegisterFunc (NewController tagCodec tagCodec) "render" (Dyn.func renderBoth)).1
        { Typ := "template.Template", Value := [1, 112, 97, 103, 101] } =
      some { typ := tHtmlTemplate, data := Data.str "page" } ∧
    DecodeValue
        (RegisterFunc (NewController tagCodec tagCodec) "render" (Dyn.func renderBoth)).1
        { Typ := "template.Template", Value := [1, 112, 97, 103, 101] } ≠
      some { typ := tTextTemplate, data := Data.str "page" } := by
  refine ⟨tagCodec_roundTrips, by decide, rfl, rfl, ?_, ?_⟩
  · rfl
  · decide

/-! ## The requests of a run of calls -/

theorem sendAll_out (p : Plugin) (ms : List Message) :
    (sendAll p ms).1.out = p.out ++ stamp p.messageID ms := by
  induction ms generalizing p with
  | nil => simp [sendAll, stamp]
  | cons m ms ih =>
    simp only [sendAll, stamp]
    rw [ih]
    simp [sendMessage]

theorem stamp_getElem? (s : Nat) (ms : List Message) (k : Nat) :
    (stamp s ms)[k]? =
      ms[k]?.map (fun m => { m with ID := (s + k + 1) % 2 ^ 64, Result := false }) := by
  induction ms generalizing s k with
  | nil => simp [stamp]
  | cons m ms ih =>
    cases k with
    | zero => simp [stamp]
    | succ k =>
      simp only [stamp, List.getElem?_cons_succ]
      rw [ih]
      have : ((s + 1) % 2 ^ 64 + k + 1) % 2 ^ 64 = (s + (k + 1) + 1) % 2 ^ 64 := by omega
      rw [this]

theorem sendAll_out_new (reqs : List Message) (k : Nat) :
    (sendAll newPlugin reqs).1.out[k]? =
      reqs[k]?.map (fun m => { m with ID := (k + 1) % 2 ^ 64, Result := false }) := by
  have hout : newPlugin.out = [] := rfl
  have hmid : newPlugin.messageID = 0 := rfl
  rw [sendAll_out, hout, List.nil_append, stamp_getElem?, hmid, Nat.zero_add]

/-! ## C6: the ids of successive calls -/

/-- C6. On a new connection, as long as the calls are fewer than `2 ^ 64` (the
counter being an unsigned 64-bit integer), the call number `k + 1` sends its
request with the id `k + 1` and `Result = false`, the rest of the message as
given: the first id is 1, the ids are strictly increasing, and any two calls
get distinct ids. -/
theorem C6_ids_strictly_increase (reqs : List Message) (hN : reqs.length < 2 ^ 64) :
    (sendAll newPlugin reqs).1.out.length = reqs.length ∧
    (∀ k, k < reqs.length →
      (sendAll newPlugin reqs).1.out[k]? =
        reqs[k]?.map (fun m => { m with ID := k + 1, Result := false })) ∧
    (∀ i j a b, i < j → j < reqs.length →
      ((sendAll newPlugin reqs).1.out[i]?).map Message.ID = some a →
      ((sendAll newPlugin reqs).1.out[j]?).map Message.ID = some b → a < b) ∧
    (∀ i j a, i < reqs.length → j < reqs.length →
      ((sendAll newPlugin reqs).1.out[i]?).map Message.ID = some a →
      ((sendAll newPlugin reqs).1.out[j]?).map Message.ID = some a → i = j) ∧
    (∀ m ∈ (sendAll newPlugin reqs).1.out, m.Result = false) := by
  have hlen : (sendAll newPlugin reqs).1.out.length = reqs.length := by
    apply Nat.le_antisymm
    · by_contra h
      have h1 : reqs.length < (sendAll newPlugin reqs).1.out.length := by omega
      have h2 := sendAll_out_new reqs reqs.length
      rw [List.getElem?_eq_getElem h1, List.getElem?_eq_none (Nat.le_refl _)] at h2
      simp at h2
    · by_contra h
      have h1 : (sendAll newPlugin reqs).1.out.length < reqs.length := by omega
      have h2 := sendAll_out_new reqs (sendAll newPlugin reqs).1.out.length
      rw [List.getElem?_eq_none (Nat.le_refl _), List.getElem?_eq_getElem h1] at h2
      simp at h2
  have hid : ∀ k, k < reqs.length →
      ((sendAll newPlugin reqs).1.out[k]?).map Message.ID = some (k + 1) := by
    intro k hk
    rw [sendAll_out_new, List.getElem?_eq_getElem hk, Nat.mod_eq_of_lt (by omega)]
    rfl
  refine ⟨hlen, ?_, ?_, ?_, ?_⟩
  · intro k hk
    rw [sendAll_out_new, Nat.mod_eq_of_lt (by omega)]
  · intro i j a b hij hj ha hb
    rw [hid i (by omega)] at ha
    rw [hid j hj] at hb
    simp only [Option.some.injEq] at ha hb
    omega
  · intro i j a hi hj ha hb
    rw [hid i hi] at ha
    rw [hid j hj] at hb
    simp only [Option.some.injEq] at ha hb
    omega
  · intro m hm
    obtain ⟨k, hk, rfl⟩ := List.getElem_of_mem hm
    have h := sendAll_out_new reqs k
    rw [List.getElem?_eq_getElem hk, List.getElem?_eq_getElem (by rw [← hlen]; exact hk)] at h
    simp only [Option.map_some', Option.some.injEq] at h
    rw [h]

/-- C6, witness. Three calls on a new connection send their requests with the
ids 1, 2, 3 and `Result = false`. -/
theorem C6_ids_strictly_increase_witness :
    [pingRequest, pingRequest, pingRequest].length < 2 ^ 64 ∧
    (sendAll newPlugin [pingRequest, pingRequest, pingRequest]).1.out.map Message.ID =
      [1, 2, 3] ∧
    (sendAll newPlugin [pingRequest, pingRequest, pingRequest]).1.out[2]? =
      [pingRequest, pingRequest, pingRequest][2]?.map
        (fun m => { m with ID := 2 + 1, Result := false }) ∧
    ∀ m ∈ (sendAll newPlugin [pingRequest, pingRequest, pingRequest]).1.out,
      m.Result = false :=
  ⟨by decide, rfl,
   (C6_ids_strictly_increase [pingRequest, pingRequest, pingRequest] (by decide)).2.1 2
     (by decide),
   (C6_ids_strictly_increase [pingRequest, pingRequest, pingRequest]
     (by decide)).2.2.2.2⟩

/-! ## C3: responses and the calls that wait for them -/

/-- C3. Two calls on a new connection get the ids 1 and 2 and wait on the
channels 0 and 1. The reader reads the response to the second call, carrying
11, then the response to the first call, carrying 10, and sends the copy of
each on the channel of its call. When the goroutine of the second call decodes
its response before the reader decodes the next frame, it receives 11. When
the reader decodes the next frame first, the goroutine of the second call
receives 10, the value of the response to the first call: `d.Decode(&m)` has
written the later frame into the `Value` cell that the delivered copy
`r := m` shares with `m`. -/
theorem C3_later_frame_overwrites_delivered_values :
    (sendAll newPlugin [pingRequest, pingRequest]).2 = [0, 1] ∧
    (sendAll newPlugin [pingRequest, pingRequest]).1.out.map Message.ID = [1, 2] ∧
    (schedule helloController (sendAll newPlugin [pingRequest, pingRequest]).1
        [Event.frame (responseTo 2 11), Event.frame (responseTo 1 10)]).chans.map
        (Option.map MemMessage.ID) = [some 1, some 2] ∧
    (schedule helloController (sendAll newPlugin [pingRequest, pingRequest]).1
        [Event.frame (responseTo 2 11), Event.frame (responseTo 1 10)]).reader =
      Reader.running ∧
    (schedule helloController (sendAll newPlugin [pingRequest, pingRequest]).1
        [Event.frame (responseTo 2 11), Event.receive 1,
         Event.frame (responseTo 1 10), Event.receive 0]).results =
      [some [intVal 10], some [intVal 11]] ∧
    (schedule helloController (sendAll newPlugin [pingRequest, pingRequest]).1
        [Event.frame (responseTo 2 11), Event.frame (responseTo 1 10),
         Event.receive 1, Event.receive 0]).results =
      [some [intVal 10], some [intVal 10]] :=
  ⟨rfl, rfl, rfl, rfl, rfl, rfl⟩

/-! ## C5: a response with an unknown id -/

/-- C5. With one call pending under id 1, the reader reads a response with
`ID = 7`, which has no entry in `returner`, and then the response with
`ID = 1`. The reader blocks on the first one for good: it never reads the
second frame, the pending call never gets its response, also when its
goroutine is scheduled, and the loop does not reach the end of the stream.
Without the stray frame the response is delivered and the loop ends at the
end of the stream. -/
theorem C5_unknown_response_blocks_reader (c : Controller) :
    (sendMessage newPlugin pingRequest).1.returner 7 = none ∧
    (readFrames c (sendMessage newPlugin pingRequest).1
        [responseTo 7 0, responseTo 1 0]).reader = Reader.blockedNil 7 ∧
    (readFrames c (sendMessage newPlugin pingRequest).1
        [responseTo 7 0, responseTo 1 0]).chans = [none] ∧
    (serveIn c (sendMessage newPlugin pingRequest).1
        [responseTo 7 0, responseTo 1 0]).reader = Reader.blockedNil 7 ∧
    (schedule c (sendMessage newPlugin pingRequest).1
        [Event.frame (responseTo 7 0), Event.receive 0, Event.frame (responseTo 1 0),
         Event.receive 0]).reader = Reader.blockedNil 7 ∧
    (schedule c (sendMessage newPlugin pingRequest).1
        [Event.frame (responseTo 7 0), Event.receive 0, Event.frame (responseTo 1 0),
         Event.receive 0]).results = [none] ∧
    (readFrames c (sendMessage newPlugin pingRequest).1 [responseTo 1 0]).chans.map
        (Option.map (readFrames c (sendMessage newPlugin pingRequest).1
          [responseTo 1 0]).load) = [some (responseTo 1 0)] ∧
    (serveIn c (sendMessage newPlugin pingRequest).1 [responseTo 1 0]).reader =
      Reader.stopped :=
  ⟨rfl, rfl, rfl, rfl, rfl, rfl, rfl, rfl⟩

/-! ## C4: the response to a request -/

/-- C4. Two requests `hello(1)` and `hello(2)` with ids 1 and 2, `hello`
being `i + 50`. When each invocation runs before the next frame is read, the
responses carry 51 and 52. When the reader decodes the second request before
the invocation for the first has started, the response with `ID = 1` carries
52, the result for the arguments of the second request. -/
theorem C4_later_request_overwrites_arguments :
    (RegisterFunc (NewPluginController tagCodec tagCodec) "hello" (Dyn.func addFifty)).2 = none ∧
    (schedule helloController newPlugin
        [Event.frame (helloRequest 1 1), Event.invoke 0,
         Event.frame (helloRequest 2 2), Event.invoke 0]).inq =
      [responseTo 1 51, responseTo 2 52] ∧
    (schedule helloController newPlugin
        [Event.frame (helloRequest 1 1), Event.frame (helloRequest 2 2),
         Event.invoke 0, Event.invoke 0]).inq =
      [responseTo 1 52, responseTo 2 52] :=
  ⟨rfl, rfl, rfl⟩

/-! ## C1: `CallFunction` on a controller made by `NewController` -/

theorem encodeAll_fault (c : Controller) (args : List Iface) (f : Fault)
    (h : encodeAll c args = Except.error f) : ∃ msg, f = Fault.panic msg := by
  induction args generalizing f with
  | nil => simp [encodeAll] at h
  | cons a rest ih =>
    simp only [encodeAll] at h
    cases he : EncodeValue c a with
    | error e =>
      rw [he] at h
      cases e with
      | panic msg => simp only [Except.error.injEq] at h; exact ⟨msg, h.symm⟩
      | error msg => simp only [Except.error.injEq] at h; exact ⟨msg, h.symm⟩
    | ok v =>
      rw [he] at h
      cases hr : encodeAll c rest with
      | error g =>
        rw [hr] at h
        simp only [Except.error.injEq] at h
        subst h
        exact ih g hr
      | ok vs => rw [hr] at h; simp at h

theorem CallFunction_nil_plugin (c : Controller) (hp : c.plugin = none)
    (identifier : String) (args : List Iface) :
    ∃ msg, CallFunction c identifier args = Except.error (Fault.panic msg) := by
  unfold CallFunction
  cases hf : c.FuncRegistry identifier with
  | none => exact ⟨_, rfl⟩
  | some f =>
    cases he : encodeAll c args with
    | error g =>
      obtain ⟨msg, hg⟩ := encodeAll_fault c args g he
      exact ⟨msg, by simp [hg]⟩
    | ok vs => exact ⟨"nil pointer dereference", by simp [hp]⟩

theorem registerTypes_plugin (c : Controller) (ts : List GoType) :
    (registerTypes c ts).1.plugin = c.plugin := by
  rw [(registerTypes_eq c ts).1]

theorem RegisterFunc_plugin (c : Controller) (identifier : String) (e : Dyn) :
    (RegisterFunc c identifier e).1.plugin = c.plugin := by
  cases e with
  | nil => rfl
  | data v => rfl
  | struct s => rfl
  | func f => rw [RegisterFunc_eq, registerTypes_plugin]

/-- C1. The calls of `TestRegisterFunc`: after `RegisterFunc("hello", f)` on a
controller made by `NewController`, the local invocation of `hello` on 50
gives 100, but `CallFunction("hello", 50)` panics on the nil `plugin`; and so
does `CallFunction` on every controller that `NewController` and one
`RegisterFunc` make, whatever the codec, the function and the arguments. -/
theorem C1_test_call_panics :
    (RegisterFunc (NewController tagCodec tagCodec) "hello" (Dyn.func addFifty)).2 = none ∧
    callFunction
        (RegisterFunc (NewController tagCodec tagCodec) "hello" (Dyn.func addFifty)).1
        "hello" [intVal 50] = Except.ok [intVal 100] ∧
    CallFunction
        (RegisterFunc (NewController tagCodec tagCodec) "hello" (Dyn.func addFifty)).1
        "hello" [intVal 50] = Except.error (Fault.panic "nil pointer dereference") ∧
    ∀ (k s : Codec) (identifier : String) (e : Dyn) (args : List Iface),
      ∃ msg, CallFunction (RegisterFunc (NewController k s) identifier e).1 identifier args =
        Except.error (Fault.panic msg) :=
  ⟨rfl, rfl, rfl, fun k s identifier e args =>
    CallFunction_nil_plugin _ (by rw [RegisterFunc_plugin]; rfl) identifier args⟩

end Gps
